import Mathlib

/-!
Shallow embedding of the `imgcat` program (src/main.rs) and verification of
the specification's claims about its source resolver and protocol encoder.

Modelling conventions:
- Bytes are `Nat` values (each below 256 by construction where it matters).
- The process environment variable `TERM` is an `Option String` (`none` when
  the variable is unset or not valid Unicode, matching `env::var` returning
  `Err`).
- External I/O collaborators (the network, the filesystem, stdin) are
  parameters gathered in a `World` structure, so every function of the
  embedding is pure and executable.
- The program is compiled for a Unix target, so the `pathsep` crate's
  `path_separator!()` macro expands to `'/'`.
-/

namespace Imgcat

/-- The escape character (0x1B), written `\x1b` in the Rust source. -/
def esc_char : Char := Char.ofNat 27

/-- The bell character (0x07), written `\x07` in the Rust source. -/
def bel_char : Char := Char.ofNat 7

/-- `path_separator!()` from the `pathsep` crate on the Unix build target. -/
def path_sep : Char := '/'

/-- `SUPPORTED_SCHEMES` from src/main.rs lines 14-16: the phf set
`{"http", "https", "ftp"}`. -/
def SUPPORTED_SCHEMES : List String := ["http", "https", "ftp"]

/-- Model of the `url` crate's parsed `Url`, restricted to the fields the
program reads: the (lowercased) scheme and the serialized path.  The host is
kept so that concrete parses can be checked against the crate's behaviour. -/
structure Url where
  scheme : String
  host : String
  path : String
deriving DecidableEq, Repr

/-- Scheme splitter for the model of `Url::parse`: a scheme is an ASCII
alphabetic character followed by alphanumerics or `+`/`-`/`.`, terminated by
`:`.  Returns the scheme characters and the remainder after the colon. -/
def scheme_split (acc : List Char) : List Char → Option (List Char × List Char)
  | [] => none
  | c :: rest =>
    if c = ':' then
      if acc = [] then none else some (acc.reverse, rest)
    else if (acc = [] ∧ c.isAlpha) ∨ (acc ≠ [] ∧ (c.isAlphanum ∨ c = '+' ∨ c = '-' ∨ c = '.')) then
      scheme_split (c :: acc) rest
    else none

/-- The WHATWG special schemes other than `file` require an authority. -/
def special_schemes : List String := ["http", "https", "ws", "wss", "ftp", "file"]

/-- Model of `Url::parse` from the `url` crate (an external collaborator of
src/main.rs), faithful on the fragment of behaviour the program depends on:
the scheme is extracted and lowercased (so `C:/a/b` parses with scheme `c`);
for special network schemes a `//`-authority with a non-empty host is
required and the path is everything from the first `/` after the host (an
absent path serializes as `/`); any other scheme parses with the remainder
as its path. -/
def url_parse (s : String) : Option Url :=
  match scheme_split [] s.data with
  | none => none
  | some (sch, rest) =>
    let scheme := String.mk (sch.map Char.toLower)
    if scheme ∈ special_schemes ∧ scheme ≠ "file" then
      match rest with
      | '/' :: '/' :: r =>
        let host := r.takeWhile (fun c => !(c == '/' || c == '?' || c == '#'))
        let after := r.dropWhile (fun c => !(c == '/' || c == '?' || c == '#'))
        if host = [] then none
        else
          let p := after.takeWhile (fun c => !(c == '?' || c == '#'))
          some ⟨scheme, String.mk host, if p = [] then "/" else String.mk p⟩
      | _ => none
    else
      some ⟨scheme, "", String.mk rest⟩

/-- Rust `s.trim_end_matches('/')`: remove every trailing `/`. -/
def trim_end_slashes (s : String) : String :=
  String.mk (s.data.reverse.dropWhile (fun c => c == '/')).reverse

/-- Rust `s.rsplitn(2, sep).next()`: the (always present) substring after the
last occurrence of `sep`, or the whole string when `sep` does not occur. -/
def last_segment (sep : Char) (s : String) : String :=
  String.mk (s.data.reverse.takeWhile (fun c => c != sep)).reverse

/-- Rust `path.trim_start_matches("file://")` on the character list: every
successive occurrence of the prefix `file://` is removed. -/
def trim_file_chars : List Char → List Char
  | 'f' :: 'i' :: 'l' :: 'e' :: ':' :: '/' :: '/' :: rest => trim_file_chars rest
  | s => s

/-- Rust `path.trim_start_matches("file://")` on strings. -/
def trim_file (s : String) : String := String.mk (trim_file_chars s.data)

/-- Alphabet of `BASE64_STANDARD` from the `base64` crate. -/
def b64_alphabet_std : List Char :=
  "ABCDEFGHIJKLMNOPQRSTUVWXYZabcdefghijklmnopqrstuvwxyz0123456789+/".data

/-- Alphabet of `BASE64_URL_SAFE` from the `base64` crate. -/
def b64_alphabet_url : List Char :=
  "ABCDEFGHIJKLMNOPQRSTUVWXYZabcdefghijklmnopqrstuvwxyz0123456789-_".data

/-- One base64 digit. -/
def b64_digit (alpha : List Char) (n : Nat) : Char := alpha.getD n 'A'

/-- Padded base64 encoding of a byte list over a given alphabet, as performed
by `Engine::encode` of the `base64` crate (both engines used by the program
emit padding). -/
def b64_chunks (alpha : List Char) : List Nat → List Char
  | [] => []
  | [a] =>
    [b64_digit alpha (a / 4), b64_digit alpha (a % 4 * 16), '=', '=']
  | [a, b] =>
    [b64_digit alpha (a / 4), b64_digit alpha (a % 4 * 16 + b / 16),
     b64_digit alpha (b % 16 * 4), '=']
  | a :: b :: c :: rest =>
    b64_digit alpha (a / 4) :: b64_digit alpha (a % 4 * 16 + b / 16) ::
    b64_digit alpha (b % 16 * 4 + c / 64) :: b64_digit alpha (c % 64) ::
    b64_chunks alpha rest

/-- `BASE64_STANDARD.encode` on a byte list. -/
def b64_std (bytes : List Nat) : String := String.mk (b64_chunks b64_alphabet_std bytes)

/-- `BASE64_URL_SAFE.encode` on a byte list. -/
def b64_url (bytes : List Nat) : String := String.mk (b64_chunks b64_alphabet_url bytes)

/-- The UTF-8 bytes of a string; the filenames the program encodes are ASCII
in every concrete case considered here, where this agrees with Rust. -/
def str_bytes (s : String) : List Nat := s.data.map Char.toNat

/-- The `Image` struct of src/main.rs: the resolved bytes, the derived short
filename, and the original locator (`path` field). -/
structure Image where
  data : List Nat
  filename : Option String
  path : Option String
deriving DecidableEq, Repr

/-- The `Cli` struct of src/main.rs (the clap-parsed options).
`preserve_aspect` models the field `preserve_aspect_ratio`; clap's
`ArgAction::SetFalse` with `default_value_t = true` means the field is
`false` exactly when the `-s`/`--stretch` flag was given. -/
structure Cli where
  file_type : Option String
  width : Option String
  height : Option String
  preserve_aspect : Bool
  print_path : Bool
  inputs : List String
deriving DecidableEq, Repr

/-- Effect of clap's `ArgAction::SetFalse` with `default_value_t = true` on
the `preserve_aspect_ratio` field: `true` unless `--stretch` was given. -/
def apply_stretch_flag (stretch_given : Bool) : Bool :=
  if stretch_given then false else true

/-- Outcome of `reqwest::blocking::get(u)` followed by `.bytes()`.
`reqwest::blocking::get` returns `Ok(response)` for every HTTP response that
is received, whatever its status code — the program never calls
`error_for_status`, so a 404 is a successful fetch whose body becomes the
data.  `connectFail` models `get` returning `Err` (transport failure);
`bodyFail` models `.bytes()` returning `Err` (failure reading the body). -/
inductive FetchOutcome where
  | connectFail
  | bodyFail
  | success (status : Nat) (body : List Nat)
deriving DecidableEq, Repr

/-- The external world: network, filesystem and metadata, all pure
parameters.  `fileContent p = none` models `File::open(p)` failing;
`metaLen p` models `fs::metadata(p).map(|m| m.len())`; `readFails p` models
the single `file.read(&mut buffer)` call returning `Err`. -/
structure World where
  net : Url → FetchOutcome
  fileContent : String → Option (List Nat)
  metaLen : String → Option Nat
  readFails : String → Bool

/-- The error cases produced by the resolver, each carrying the string its
`with_context` message names in src/main.rs. -/
inductive SrcError where
  | connectError (url : String)
  | fetchDataError (url : String)
  | openError (path : String)
  | readError (path : String)
  | stdinError
deriving DecidableEq, Repr

/-- The local-path branch of `Image::try_new` (src/main.rs lines 97-110),
transcribed statement by statement:
`f = path.trim_start_matches("file://")`;
`filename = f.rsplitn(2, path_separator!()).next().map(..)`;
`File::open(path)` — note: the original `path`, not `f`;
`fs::metadata(&f)` sizes the buffer (`vec![0; m.len()]`, else `Vec::new()`);
a single `file.read(&mut buffer)` fills at most `buffer.len()` bytes and the
buffer keeps its allocated length, so the data is the first
`min buflen content.length` content bytes padded with zeros to `buflen`. -/
def local_resolve (w : World) (path : String) : Except SrcError Image :=
  let f := trim_file path
  let filename := some (last_segment path_sep f)
  match w.fileContent path with
  | none => Except.error (SrcError.openError f)
  | some content =>
    if w.readFails path then Except.error (SrcError.readError f)
    else
      let buflen := match w.metaLen f with
        | some m => m
        | none => 0
      let k := min buflen content.length
      Except.ok { data := content.take k ++ List.replicate (buflen - k) 0,
                  filename := filename, path := some path }

/-- `Image::try_new` (src/main.rs lines 77-111): if the input parses as a URL
whose scheme is in `SUPPORTED_SCHEMES`, derive the filename from the URL path
and fetch; otherwise fall through to the local-path branch. -/
def try_new (w : World) (path : String) : Except SrcError Image :=
  match url_parse path with
  | some u =>
    if SUPPORTED_SCHEMES.contains u.scheme then
      let filename := some (last_segment '/' (trim_end_slashes u.path))
      match w.net u with
      | FetchOutcome.connectFail => Except.error (SrcError.connectError path)
      | FetchOutcome.bodyFail => Except.error (SrcError.fetchDataError path)
      | FetchOutcome.success _ body =>
        Except.ok { data := body, filename := filename, path := some path }
    else local_resolve w path
  | none => local_resolve w path

/-- `Image::from_stdin` (src/main.rs lines 113-118): read all of stdin;
`filename` and `path` are `None`. -/
def from_stdin (stdin : Except Unit (List Nat)) : Except SrcError Image :=
  match stdin with
  | Except.error _ => Except.error SrcError.stdinError
  | Except.ok data => Except.ok { data := data, filename := none, path := none }

/-- Rust `s.starts_with(pre)` on character lists. -/
def starts_with_chars : List Char → List Char → Bool
  | _, [] => true
  | [], _ :: _ => false
  | c :: cs, p :: ps => c == p && starts_with_chars cs ps

/-- Rust `s.starts_with(pre)` on strings. -/
def starts_with (s pre : String) : Bool := starts_with_chars s.data pre.data

/-- `print_osc` (src/main.rs lines 125-135): emit the multiplexer passthrough
opening when `TERM` starts with `screen` or `tmux`, the plain `ESC ]`
otherwise (also when `TERM` is unset). -/
def print_osc (term : Option String) : String :=
  match term with
  | some t =>
    if starts_with t "screen" || starts_with t "tmux" then
      String.mk [esc_char, 'P', 't', 'm', 'u', 'x', ';', esc_char, esc_char, ']']
    else String.mk [esc_char, ']']
  | none => String.mk [esc_char, ']']

/-- `print_st` (src/main.rs lines 172-182): emit `BEL ESC \` when `TERM`
starts with `screen` or `tmux`, `BEL` alone otherwise. -/
def print_st (term : Option String) : String :=
  match term with
  | some t =>
    if starts_with t "screen" || starts_with t "tmux" then
      String.mk [bel_char, esc_char, '\\']
    else String.mk [bel_char]
  | none => String.mk [bel_char]

/-- An optional `print!(";label={v}")` field of `print_image`: the label
followed by the value when present, nothing otherwise. -/
def opt_field (label : String) (v : Option String) : String :=
  match v with
  | some s => label ++ s
  | none => ""

/-- The `;name=` field of `print_image`: present filenames are base64
encoded with the URL-safe alphabet. -/
def name_field (fn : Option String) : String :=
  match fn with
  | some n => ";name=" ++ b64_url (str_bytes n)
  | none => ""

/-- The trailing origin echo of `print_image`: when `--print-path` was given
and the image has a `path`, that path followed by a newline. -/
def origin_echo (pp : Bool) (origin : Option String) : String :=
  if pp then
    match origin with
    | some name => name ++ "\n"
    | none => ""
  else ""

/-- `print_image` (src/main.rs lines 137-170): the full byte sequence written
to stdout for one image: opening framing, the `1337;File=` header with the
`size`, optional `name`, optional `width`/`height`, the always-present
`preserveAspectRatio` digit (`1` for `true`, `0` for `false`, from
`preserve_aspect_ratio as u8`), optional `type`, the `:`-separated standard
base64 payload, closing framing, a newline, and the optional origin echo. -/
def print_image (term : Option String) (image : Image) (args : Cli) : String :=
  print_osc term
  ++ "1337;File=inline=1;size=" ++ toString image.data.length
  ++ name_field image.filename
  ++ opt_field ";width=" args.width
  ++ opt_field ";height=" args.height
  ++ ";preserveAspectRatio=" ++ (if args.preserve_aspect then "1" else "0")
  ++ opt_field ";type=" args.file_type
  ++ ":" ++ b64_std image.data
  ++ print_st term
  ++ "\n"
  ++ origin_echo args.print_path image.path

/-- The loop body of `main`: process the inputs in order, writing each
image's sequence, stopping at the first resolution error (`try_for_each`).
Returns the bytes written and the error that stopped the loop, if any. -/
def run_inputs (w : World) (term : Option String) (args : Cli) :
    List String → String × Option SrcError
  | [] => ("", none)
  | x :: rest =>
    match try_new w x with
    | Except.error e => ("", some e)
    | Except.ok img =>
      let r := run_inputs w term args rest
      (print_image term img args ++ r.fst, r.snd)

/-- `main` (src/main.rs lines 184-199): print the `got N input images` line,
then either the stdin image's sequence (no positional inputs) or each
input's sequence in order until the first error.  The result is the full
stdout byte string and the error `main` returned with, if any. -/
def main_output (w : World) (term : Option String) (args : Cli)
    (stdin : Except Unit (List Nat)) : String × Option SrcError :=
  let header := "got " ++ toString args.inputs.length ++ " input images\n"
  if args.inputs.isEmpty then
    match from_stdin stdin with
    | Except.error e => (header, some e)
    | Except.ok img => (header ++ print_image term img args, none)
  else
    let r := run_inputs w term args args.inputs
    (header ++ r.fst, r.snd)

/-- The classification the resolver performs, read off the guard structure of
`Image::try_new`: an input is treated as remote exactly when it parses as a
URL whose scheme is in `SUPPORTED_SCHEMES`.  The function takes only the
input string — no `World` — so classification cannot consult the filesystem
or the network. -/
def classify_remote (p : String) : Bool :=
  match url_parse p with
  | some u => SUPPORTED_SCHEMES.contains u.scheme
  | none => false

/-- The remote branch of `Image::try_new` in isolation (only meaningful when
`classify_remote` holds, in which case `url_parse` succeeds). -/
def remote_resolve (w : World) (p : String) : Except SrcError Image :=
  match url_parse p with
  | some u =>
    match w.net u with
    | FetchOutcome.connectFail => Except.error (SrcError.connectError p)
    | FetchOutcome.bodyFail => Except.error (SrcError.fetchDataError p)
    | FetchOutcome.success _ body =>
      Except.ok { data := body,
                  filename := some (last_segment '/' (trim_end_slashes u.path)),
                  path := some p }
  | none => Except.error (SrcError.connectError p)

/-- The world in which every external operation fails or is absent. -/
def trivial_world : World :=
  { net := fun _ => FetchOutcome.connectFail,
    fileContent := fun _ => none,
    metaLen := fun _ => none,
    readFails := fun _ => false }

/-- The options produced by `Cli::parse` when no flag is given. -/
def default_cli : Cli :=
  { file_type := none, width := none, height := none,
    preserve_aspect := true, print_path := false, inputs := [] }

/-- The options of an invocation whose single positional input is `a.png`. -/
def cli_one : Cli := { default_cli with inputs := ["a.png"] }

/-- A network on which every URL answers 404 with the body `<html` (five
bytes). -/
def w_404 : World :=
  { trivial_world with net := fun _ => FetchOutcome.success 404 [60, 104, 116, 109, 108] }

/-- A network on which every URL answers 200 with a one-byte body. -/
def w_hostonly : World :=
  { trivial_world with net := fun _ => FetchOutcome.success 200 [5] }

/-- A filesystem holding the two-byte file `a.png` with accurate metadata. -/
def w_files : World :=
  { trivial_world with
    fileContent := fun p => if p = "a.png" then some [1, 2] else none,
    metaLen := fun p => if p = "a.png" then some 2 else none }

/-- A filesystem holding a readable three-byte file `devfile` whose
`fs::metadata` call fails (as for some special files). -/
def w_nometa : World :=
  { trivial_world with
    fileContent := fun p => if p = "devfile" then some [1, 2, 3] else none }

/-- A filesystem holding a one-byte file at `/tmp/img.png` (with accurate
metadata) and nothing at any other path. -/
def w_fileurl : World :=
  { trivial_world with
    fileContent := fun p => if p = "/tmp/img.png" then some [9] else none,
    metaLen := fun p => if p = "/tmp/img.png" then some 1 else none }

/-- A filesystem on which every path is a one-byte file with accurate
metadata. -/
def w_local : World :=
  { trivial_world with
    fileContent := fun _ => some [1],
    metaLen := fun _ => some 1 }

/-- The ten image bytes of the specification's encoder scenario. -/
def photo_bytes : List Nat := [255, 216, 255, 224, 0, 16, 74, 70, 73, 70]

/-- The concatenation of the encoded sequences of a list of images. -/
def concat_outputs (term : Option String) (args : Cli) : List Image → String
  | [] => ""
  | i :: rest => print_image term i args ++ concat_outputs term args rest

/-- All inputs resolved in order, `none` as soon as one fails. -/
def resolve_all (w : World) : List String → Option (List Image)
  | [] => some []
  | x :: rest =>
    match try_new w x, resolve_all w rest with
    | Except.ok img, some imgs => some (img :: imgs)
    | _, _ => none

/-- The multiplexer test both `print_osc` and `print_st` duplicate:
`TERM` is set and starts with `screen` or `tmux`. -/
def is_mux (term : Option String) : Bool :=
  match term with
  | some t => starts_with t "screen" || starts_with t "tmux"
  | none => false

theorem takeWhile_of_all {p : Char → Bool} :
    ∀ l : List Char, (∀ c ∈ l, p c = true) → l.takeWhile p = l :=
  fun _ h => List.takeWhile_eq_self_iff.mpr h

theorem try_new_split (w : World) (p : String) :
    try_new w p = if classify_remote p then remote_resolve w p else local_resolve w p := by
  cases h : url_parse p with
  | none => simp [try_new, classify_remote, local_resolve, h]
  | some u =>
    cases hc : SUPPORTED_SCHEMES.contains u.scheme with
    | false => simp [try_new, classify_remote, remote_resolve, h, hc]
    | true => simp [try_new, classify_remote, remote_resolve, h, hc]

theorem run_inputs_concat (w : World) (term : Option String) (args : Cli) :
    ∀ (xs : List String) (imgs : List Image), resolve_all w xs = some imgs →
      run_inputs w term args xs = (concat_outputs term args imgs, none) := by
  intro xs
  induction xs with
  | nil =>
    intro imgs h
    simp [resolve_all] at h
    subst h
    rfl
  | cons x rest ih =>
    intro imgs h
    simp only [resolve_all] at h
    cases hx : try_new w x with
    | error e => rw [hx] at h; simp at h
    | ok img =>
      rw [hx] at h
      cases hr : resolve_all w rest with
      | none => rw [hr] at h; simp at h
      | some imgs2 =>
        rw [hr] at h
        simp at h
        subst h
        simp only [run_inputs, hx, ih imgs2 hr, concat_outputs]

/-- C5: classification of an input string is a pure function of its syntactic
shape — `Image::try_new` takes the remote branch exactly when the string
parses as a URL whose scheme is in the allow-list `{http, https, ftp}` and
the local branch in every other case, including parse failures, unsupported
schemes, and drive-letter shapes such as `C:/a/b`; `classify_remote` takes no
`World`, so no filesystem or network access is involved in the decision. -/
theorem c5_pure_classification :
    (∀ (w : World) (p : String),
      try_new w p = if classify_remote p then remote_resolve w p else local_resolve w p) ∧
    classify_remote "C:/a/b" = false ∧
    classify_remote "https://host/pic.jpg" = true ∧
    classify_remote "http://host/pic.jpg" = true ∧
    classify_remote "ftp://host/pic.jpg" = true ∧
    classify_remote "mailto:user@host" = false ∧
    classify_remote "/usr/share/a.png" = false ∧
    classify_remote "photo.png" = false :=
  ⟨try_new_split, by decide, by decide, by decide, by decide, by decide, by decide, by decide⟩

/-- C8: within one encoded sequence the opening and closing framing agree:
both are the multiplexer passthrough forms, or both the plain forms, and the
choice is the single predicate `is_mux` on `TERM` (`TERM` starts with
`screen` or `tmux`); an absent `TERM` is not a multiplexer. -/
theorem c8_framing_consistent :
    (∀ term : Option String,
      (print_osc term, print_st term) =
        if is_mux term
        then (String.mk [esc_char, 'P', 't', 'm', 'u', 'x', ';', esc_char, esc_char, ']'],
              String.mk [bel_char, esc_char, '\\'])
        else (String.mk [esc_char, ']'], String.mk [bel_char])) ∧
    is_mux none = false ∧
    is_mux (some "screen.xterm-256color") = true ∧
    is_mux (some "tmux-256color") = true ∧
    is_mux (some "xterm-256color") = false := by
  refine ⟨fun term => ?_, by decide, by decide, by decide, by decide⟩
  cases term with
  | none => rfl
  | some t =>
    simp only [print_osc, print_st, is_mux]
    rcases Bool.eq_false_or_eq_true (starts_with t "screen" || starts_with t "tmux") with h | h <;>
      simp [h]

set_option maxHeartbeats 2000000 in
/-- C6: the encoded sequence has the fixed field layout with `size=` equal to
the exact byte length of the data, a present filename appended URL-safe
base64 encoded, `preserveAspectRatio` always present and `0` exactly when
stretch was requested (clap sets `preserve_aspect_ratio` to `false` then),
and the payload standard padded base64 after `:`; the no-flags encoding of
the named 10-byte image of the specification scenario matches byte for
byte. -/
theorem c6_encoder_layout :
    (∀ (term : Option String) (image : Image) (args : Cli),
      print_image term image args =
        print_osc term
          ++ "1337;File=inline=1;size=" ++ toString image.data.length
          ++ name_field image.filename
          ++ opt_field ";width=" args.width
          ++ opt_field ";height=" args.height
          ++ ";preserveAspectRatio=" ++ (if args.preserve_aspect then "1" else "0")
          ++ opt_field ";type=" args.file_type
          ++ ":" ++ b64_std image.data
          ++ print_st term
          ++ "\n"
          ++ origin_echo args.print_path image.path) ∧
    (∀ stretch_given : Bool,
      (if apply_stretch_flag stretch_given then "1" else "0") =
        if stretch_given then "0" else "1") ∧
    print_image none
        { data := photo_bytes, filename := some "photo.png", path := some "photo.png" }
        default_cli =
      "\x1b]1337;File=inline=1;size=10;name=cGhvdG8ucG5n;preserveAspectRatio=1:/9j/4AAQSkZJRg==\x07\n" :=
  ⟨fun _ _ _ => rfl, fun sg => by cases sg <;> rfl, by decide⟩

/-- C1, counterexample: at a concrete invocation (no inputs, one stdin byte,
no flags, `TERM` unset) the bytes `main` writes to stdout are not just the
encoded sequence of that input: the claim that stdout consists solely of the
encoded sequences fails, because `main` first prints its
`got N input images` line. -/
theorem c1_counterexample :
    (main_output trivial_world none default_cli (Except.ok [255])).fst ≠
      print_image none { data := [255], filename := none, path := none } default_cli := by
  decide

/-- C1, amended: for every invocation with positional inputs that all
resolve, stdout is the line `got N input images` (N the number of inputs)
followed by the encoded sequences, one per input, back to back, each with
its optional origin line; nothing else is written and `main` reports no
error. -/
theorem c1_amended_output (w : World) (term : Option String) (args : Cli)
    (stdin : Except Unit (List Nat)) (imgs : List Image)
    (hne : args.inputs ≠ []) (hres : resolve_all w args.inputs = some imgs) :
    main_output w term args stdin =
      ("got " ++ toString args.inputs.length ++ " input images\n"
         ++ concat_outputs term args imgs, none) := by
  have hi : args.inputs.isEmpty = false := by
    cases h : args.inputs with
    | nil => exact absurd h hne
    | cons a l => rfl
  simp only [main_output, hi, Bool.false_eq_true, if_false]
  rw [run_inputs_concat w term args args.inputs imgs hres]

/-- Witness for the amended C1 at a concrete one-input invocation. -/
theorem c1_witness :
    main_output w_files none cli_one (Except.ok []) =
      ("got " ++ toString cli_one.inputs.length ++ " input images\n"
         ++ concat_outputs none cli_one
              [{ data := [1, 2], filename := some "a.png", path := some "a.png" }], none) :=
  c1_amended_output w_files none cli_one (Except.ok [])
    [{ data := [1, 2], filename := some "a.png", path := some "a.png" }]
    (by decide) (by decide)

/-- C2, counterexample: a URL with a supported scheme that answers 404 is not
a failure for `Image::try_new` — `reqwest::blocking::get` only fails on
transport errors and the program never checks the response status, so the
404 body is returned as the resolved image data, contradicting the claim
that a non-success response fails with a `FetchError`. -/
theorem c2_counterexample :
    try_new w_404 "https://host/a/b/pic.jpg" =
      Except.ok { data := [60, 104, 116, 109, 108], filename := some "pic.jpg",
                  path := some "https://host/a/b/pic.jpg" } := rfl

/-- C2, amended: for every input that parses as a URL with a supported
scheme, the resolver issues the one blocking fetch and fails with an error
naming the URL exactly when the transport fails (`connectError`) or reading
the response body fails (`fetchDataError`); any received response —
whatever its status — succeeds, with the body as the image data, so no
image is produced only in those two failure cases. -/
theorem c2_amended_fetch (w : World) (p : String) (u : Url)
    (hu : url_parse p = some u) (hs : SUPPORTED_SCHEMES.contains u.scheme = true) :
    (w.net u = FetchOutcome.connectFail →
      try_new w p = Except.error (SrcError.connectError p)) ∧
    (w.net u = FetchOutcome.bodyFail →
      try_new w p = Except.error (SrcError.fetchDataError p)) ∧
    (∀ (st : Nat) (body : List Nat), w.net u = FetchOutcome.success st body →
      try_new w p =
        Except.ok { data := body,
                    filename := some (last_segment '/' (trim_end_slashes u.path)),
                    path := some p }) := by
  have hmem : u.scheme ∈ SUPPORTED_SCHEMES := by simpa using hs
  have hc : classify_remote p = true := by simp [classify_remote, hu, hmem]
  refine ⟨fun hn => ?_, fun hn => ?_, fun st body hn => ?_⟩ <;>
    rw [try_new_split, hc] <;> simp [remote_resolve, hu, hn]

/-- Witness for the amended C2 at a concrete URL on the 404 network. -/
theorem c2_witness :
    try_new w_404 "http://h/x" =
      Except.ok { data := [60, 104, 116, 109, 108],
                  filename := some (last_segment '/' (trim_end_slashes "/x")),
                  path := some "http://h/x" } :=
  (c2_amended_fetch w_404 "http://h/x" ⟨"http", "h", "/x"⟩ (by decide) (by decide)).2.2
    404 [60, 104, 116, 109, 108] rfl

/-- C7, counterexample: for the successfully fetched URL `https://host`, the
URL path serializes as `/`, which is empty after stripping trailing
separators — and the derived filename is `some ""` (an empty string), not
`none` as the claim states. -/
theorem c7_counterexample :
    try_new w_hostonly "https://host" =
      Except.ok { data := [5], filename := some "", path := some "https://host" } ∧
    (some "" : Option String) ≠ none :=
  ⟨rfl, by decide⟩

/-- C7, amended: for every successfully fetched remote input, the derived
filename is `some` of the final segment of the URL path after stripping
trailing `/` — always present; when the stripped path is empty the filename
is the present-but-empty string `some ""`, never `none`. -/
theorem c7_amended_filename (w : World) (p : String) (u : Url) (img : Image)
    (hu : url_parse p = some u) (hs : SUPPORTED_SCHEMES.contains u.scheme = true)
    (hok : try_new w p = Except.ok img) :
    img.filename = some (last_segment '/' (trim_end_slashes u.path)) := by
  have hmem : u.scheme ∈ SUPPORTED_SCHEMES := by simpa using hs
  have hc : classify_remote p = true := by simp [classify_remote, hu, hmem]
  rw [try_new_split, hc] at hok
  simp only [if_true] at hok
  simp only [remote_resolve, hu] at hok
  cases hn : w.net u with
  | connectFail => rw [hn] at hok; exact Except.noConfusion hok
  | bodyFail => rw [hn] at hok; exact Except.noConfusion hok
  | success st body =>
    rw [hn] at hok
    cases hok
    rfl

/-- Witness for the amended C7 at the path-less URL `https://host`. -/
theorem c7_witness :
    Image.filename { data := [5], filename := some "", path := some "https://host" } =
      some (last_segment '/' (trim_end_slashes "/")) :=
  c7_amended_filename w_hostonly "https://host" ⟨"https", "host", "/"⟩
    { data := [5], filename := some "", path := some "https://host" }
    (by decide) (by decide) rfl

/-- C3, code bug: on a readable file whose `fs::metadata` call fails (the
very case the code's `Err(_) => Vec::new()` arm is for), the resolver
returns empty data although the file's content is `[1, 2, 3]` — the single
`file.read(&mut buffer)` into the zero-length fallback buffer reads nothing
and the buffer is never grown, so the file is not read to end-of-file. -/
theorem c3_single_read_eval :
    try_new w_nometa "devfile" =
      Except.ok { data := [], filename := some "devfile", path := some "devfile" } ∧
    w_nometa.fileContent "devfile" = some [1, 2, 3] ∧
    ([] : List Nat) ≠ [1, 2, 3] :=
  ⟨rfl, rfl, by decide⟩

/-- C4, code bug: for the input `file:///tmp/img.png` with a file present at
`/tmp/img.png`, resolution fails with an open error — `File::open(path)` is
given the unstripped original string — even though the stripped path (which
the code's own error message and `fs::metadata` call use, confirming the
stripping was intended for the open as well) names an existing file. -/
theorem c4_open_unstripped_eval :
    try_new w_fileurl "file:///tmp/img.png" =
      Except.error (SrcError.openError "/tmp/img.png") ∧
    w_fileurl.fileContent "/tmp/img.png" = some [9] ∧
    trim_file "file:///tmp/img.png" = "/tmp/img.png" :=
  ⟨rfl, rfl, rfl⟩

/-- C9: with an empty argument list the resolver reads stdin and returns an
image with `filename = none` and `path = none`, and the encoded output of
that image contains no `;name=` field and no origin echo line even when
`--print-path` was set. -/
theorem c9_stdin_no_name (b : List Nat) (term : Option String)
    (wd ht ft : Option String) (pa : Bool) (ins : List String) :
    from_stdin (Except.ok b) = Except.ok { data := b, filename := none, path := none } ∧
    print_image term { data := b, filename := none, path := none }
        { file_type := ft, width := wd, height := ht, preserve_aspect := pa,
          print_path := true, inputs := ins } =
      print_osc term ++ "1337;File=inline=1;size=" ++ toString b.length
        ++ opt_field ";width=" wd ++ opt_field ";height=" ht
        ++ ";preserveAspectRatio=" ++ (if pa then "1" else "0")
        ++ opt_field ";type=" ft
        ++ ":" ++ b64_std b ++ print_st term ++ "\n" := by
  refine ⟨rfl, ?_⟩
  simp [print_image, name_field, origin_echo, String.append_assoc, String.append_empty]

/-- C10: every successful local resolution carries a present filename —
`some` of the final segment of the prefix-stripped input split on the
platform separator; that segment is the whole input when no separator
occurs and the empty string when the input ends with the separator; only
the stdin source yields `filename = none`. -/
theorem c10_local_filename_present :
    (∀ (w : World) (p : String) (img : Image),
      classify_remote p = false → try_new w p = Except.ok img →
      img.filename = some (last_segment path_sep (trim_file p))) ∧
    (∀ s : String, (∀ c ∈ s.data, c ≠ path_sep) → last_segment path_sep s = s) ∧
    (∀ s : String, last_segment path_sep (s ++ String.mk [path_sep]) = "") ∧
    (∀ b : List Nat,
      from_stdin (Except.ok b) = Except.ok { data := b, filename := none, path := none }) := by
  refine ⟨?_, ?_, ?_, fun b => rfl⟩
  · intro w p img hc hok
    rw [try_new_split, hc] at hok
    simp only [Bool.false_eq_true, if_false] at hok
    simp only [local_resolve] at hok
    cases hF : w.fileContent p with
    | none => rw [hF] at hok; exact Except.noConfusion hok
    | some content =>
      rw [hF] at hok
      cases hR : w.readFails p with
      | true => rw [hR] at hok; simp at hok
      | false =>
        rw [hR] at hok
        simp only [Bool.false_eq_true, if_false, Except.ok.injEq] at hok
        subst hok
        rfl
  · intro s h
    unfold last_segment
    rw [takeWhile_of_all]
    · rw [List.reverse_reverse]
    · intro c hc
      rw [List.mem_reverse] at hc
      simpa using h c hc
  · intro s
    unfold last_segment
    rw [String.data_append, List.reverse_append]
    simp [List.takeWhile_cons]

/-- Witness for C10 at a concrete local input with one separator. -/
theorem c10_witness :
    Image.filename { data := [1], filename := some "b.png", path := some "a/b.png" } =
      some (last_segment path_sep (trim_file "a/b.png")) :=
  c10_local_filename_present.1 w_local "a/b.png"
    { data := [1], filename := some "b.png", path := some "a/b.png" }
    (by decide) rfl

end Imgcat
